import Mathlib

/-!
Shallow embedding of the rpdo request/reply messaging library
(src/error.rs, src/context.rs, src/comm.rs, src/host.rs, src/io.rs).

Bytes are modelled as `Nat` values below 256, byte strings as `List Nat`.
Machine-integer overflow is modelled explicitly with `% 2 ^ w` where the
source relies on it.  Mutexes are abstracted away: the embedded operations
are sequential functions on the guarded data, matching the source where a
lock is held exactly for the duration of one copy in or out.
-/

namespace Rpdo

/-! ## Error model (src/error.rs) -/

/-- Error code for unknown host (`ERR_UNKNOWN_HOST`). -/
def ERR_UNKNOWN_HOST : Nat := 0x0001

/-- Error code for invalid command (`ERR_INVALID_COMMAND`). -/
def ERR_INVALID_COMMAND : Nat := 0x0002

/-- Error code for invalid register (`ERR_INVALID_REGISTER`). -/
def ERR_INVALID_REGISTER : Nat := 0x0003

/-- Error code for invalid offset (`ERR_INVALID_OFFSET`). -/
def ERR_INVALID_OFFSET : Nat := 0x0004

/-- Error code for invalid reply (`ERR_INVALID_REPLY`). -/
def ERR_INVALID_REPLY : Nat := 0x0005

/-- Error code for overflow (`ERR_OVERFLOW`). -/
def ERR_OVERFLOW : Nat := 0x0006

/-- Error code for invalid version (`ERR_INVALID_VERSION`). -/
def ERR_INVALID_VERSION : Nat := 0x0007

/-- Error code for I/O error (`ERR_IO`). -/
def ERR_IO : Nat := 0x0008

/-- Error code for invalid data (`ERR_INVALID_DATA`). -/
def ERR_INVALID_DATA : Nat := 0x0009

/-- Error code for failed data packing/unpacking (`ERR_PACKER`). -/
def ERR_PACKER : Nat := 0x0010

/-- Error code for all other errors (`ERR_FAILED`). -/
def ERR_FAILED : Nat := 0x0000

/-- The `Error` enum of src/error.rs.  The message payloads carried by the
`Io`, `Packer` and `Failed` variants are modelled as raw byte strings
(`List Nat`): on the Rust side they are `String` and error values whose
display strings are turned into UTF-8 bytes when encoded to the wire. -/
inductive Error where
  | UnknownHost
  | InvalidCommand
  | InvalidRegister
  | InvalidOffset
  | InvalidReply
  | Overflow
  | UnsupportedVersion
  | Io (msg : List Nat)
  | InvalidData
  | Packer (msg : List Nat)
  | Failed (msg : List Nat)
deriving Repr, DecidableEq

/-- The `Error::code` method: the stable 16-bit code of each variant. -/
def Error.code : Error → Nat
  | .UnknownHost => ERR_UNKNOWN_HOST
  | .InvalidCommand => ERR_INVALID_COMMAND
  | .InvalidRegister => ERR_INVALID_REGISTER
  | .InvalidOffset => ERR_INVALID_OFFSET
  | .InvalidReply => ERR_INVALID_REPLY
  | .Overflow => ERR_OVERFLOW
  | .UnsupportedVersion => ERR_INVALID_VERSION
  | .Io _ => ERR_IO
  | .InvalidData => ERR_INVALID_DATA
  | .Packer _ => ERR_PACKER
  | .Failed _ => ERR_FAILED

/-- Little-endian bytes of a 16-bit value (`u16::to_le_bytes`). -/
def u16le (n : Nat) : List Nat := [n % 256, n / 256 % 256]

/-- Little-endian bytes of a 32-bit value (`u32::to_le_bytes`). -/
def u32le (n : Nat) : List Nat :=
  [n % 256, n / 256 % 256, n / 256 / 256 % 256, n / 256 / 256 / 256 % 256]

/-- Little-endian value of a byte string (`from_le_bytes` on bytes). -/
def leVal (bs : List Nat) : Nat := bs.foldr (fun b acc => b + 256 * acc) 0

/-- The `impl From<Error> for Vec<u8>` wire encoding of an error: the 2-byte
little-endian code, followed by the message bytes for the `Io`, `Packer` and
`Failed` variants. -/
def Error.encode (err : Error) : List Nat :=
  u16le err.code ++
    match err with
    | .Io msg => msg
    | .Packer msg => msg
    | .Failed msg => msg
    | _ => []

/-- One continuation byte of a UTF-8 sequence (0x80 ..= 0xBF). -/
def isCont (b : Nat) : Bool := 0x80 ≤ b && b ≤ 0xBF

/-- Validity of a byte string as UTF-8, as checked by `std::str::from_utf8`
(rejecting overlong forms, surrogates and values above U+10FFFF). -/
def utf8Valid : List Nat → Bool
  | [] => true
  | b :: rest =>
    if b ≤ 0x7F then utf8Valid rest
    else if 0xC2 ≤ b ∧ b ≤ 0xDF then
      match rest with
      | c1 :: r => isCont c1 && utf8Valid r
      | _ => false
    else if b = 0xE0 then
      match rest with
      | c1 :: c2 :: r => (0xA0 ≤ c1 && c1 ≤ 0xBF) && isCont c2 && utf8Valid r
      | _ => false
    else if 0xE1 ≤ b ∧ b ≤ 0xEC then
      match rest with
      | c1 :: c2 :: r => isCont c1 && isCont c2 && utf8Valid r
      | _ => false
    else if b = 0xED then
      match rest with
      | c1 :: c2 :: r => (0x80 ≤ c1 && c1 ≤ 0x9F) && isCont c2 && utf8Valid r
      | _ => false
    else if 0xEE ≤ b ∧ b ≤ 0xEF then
      match rest with
      | c1 :: c2 :: r => isCont c1 && isCont c2 && utf8Valid r
      | _ => false
    else if b = 0xF0 then
      match rest with
      | c1 :: c2 :: c3 :: r =>
        (0x90 ≤ c1 && c1 ≤ 0xBF) && isCont c2 && isCont c3 && utf8Valid r
      | _ => false
    else if 0xF1 ≤ b ∧ b ≤ 0xF3 then
      match rest with
      | c1 :: c2 :: c3 :: r => isCont c1 && isCont c2 && isCont c3 && utf8Valid r
      | _ => false
    else if b = 0xF4 then
      match rest with
      | c1 :: c2 :: c3 :: r =>
        (0x80 ≤ c1 && c1 ≤ 0x8F) && isCont c2 && isCont c3 && utf8Valid r
      | _ => false
    else false

/-- The `str::from_utf8(bytes).unwrap_or_default()` idiom used by the error
decoder: the bytes themselves when valid UTF-8, the empty string otherwise. -/
def utf8OrEmpty (bs : List Nat) : List Nat := if utf8Valid bs then bs else []

/-- ASCII byte of one uppercase hexadecimal digit. -/
def hexDigit (n : Nat) : Nat := if n < 10 then 48 + n else 55 + n

/-- Four uppercase hexadecimal ASCII digits of a 16-bit value, as produced by
the format string of the unknown-code arm of the error decoder. -/
def hex4 (n : Nat) : List Nat :=
  [hexDigit (n / 4096 % 16), hexDigit (n / 256 % 16), hexDigit (n / 16 % 16),
   hexDigit (n % 16)]

/-- The message bytes of the fallback arm of the error decoder, the UTF-8
bytes of the formatted unknown-code message. -/
def unknownCodeMsg (code : Nat) : List Nat :=
  ("Unknown error code: 0x".data.map Char.toNat) ++ hex4 code

/-- The `impl From<&[u8]> for Error` wire decoding of an error payload: a
slice shorter than 2 bytes gives `Failed` with an empty message, otherwise
the first two bytes are the little-endian code, the rest the message.  Note
that the code match has no arm for `ERR_PACKER`: 0x0010 falls into the
unknown-code fallback. -/
def Error.decode (slice : List Nat) : Error :=
  if slice.length < 2 then .Failed []
  else
    let code := leVal (slice.take 2)
    let msg := utf8OrEmpty (slice.drop 2)
    if code = ERR_UNKNOWN_HOST then .UnknownHost
    else if code = ERR_INVALID_COMMAND then .InvalidCommand
    else if code = ERR_INVALID_REGISTER then .InvalidRegister
    else if code = ERR_INVALID_OFFSET then .InvalidOffset
    else if code = ERR_INVALID_REPLY then .InvalidReply
    else if code = ERR_OVERFLOW then .Overflow
    else if code = ERR_INVALID_VERSION then .UnsupportedVersion
    else if code = ERR_IO then .Io msg
    else if code = ERR_INVALID_DATA then .InvalidData
    else if code = ERR_FAILED then .Failed msg
    else .Failed (unknownCodeMsg code)

/-! ## Shared context (src/context.rs) -/

/-- Wrapping subtraction on `usize` values (release-mode two's-complement
semantics of `a - b` on a 64-bit target). -/
def usizeSub (a b : Nat) : Nat := (a + 2 ^ 64 - b) % 2 ^ 64

/-- The state of a `Basic` context: the register bank (each register a byte
vector, the per-register mutexes abstracted away) and the growth flag. -/
structure BasicCtx where
  data : List (List Nat)
  register_flexible : Bool
deriving Repr, DecidableEq

/-- The `Vec::resize(n, 0)` operation on a byte vector: truncate to `n` or
grow with zero padding to length `n`. -/
def resizeList (v : List Nat) (n : Nat) : List Nat :=
  v.take n ++ List.replicate (n - v.length) 0

/-- The `v[offset..offset + data.len()].copy_from_slice(data)` operation,
meaningful when `offset + data.length ≤ v.length`. -/
def writeSlice (v : List Nat) (offset : Nat) (data : List Nat) : List Nat :=
  v.take offset ++ data ++ v.drop (offset + data.length)

/-- The `Basic::set_bytes` implementation of `RpdoContext::set_bytes`:
out-of-range register fails `InvalidRegister`; a write past the end of the
register fails `InvalidOffset` unless the context is flexible, in which case
the register is first grown with zero padding to `offset + data.len()`. -/
def BasicCtx.set_bytes (ctx : BasicCtx) (register offset : Nat)
    (data : List Nat) : Except Error BasicCtx :=
  match ctx.data.get? register with
  | none => .error .InvalidRegister
  | some reg_data =>
    if reg_data.length < offset + data.length then
      if !ctx.register_flexible then .error .InvalidOffset
      else
        .ok { ctx with
          data := ctx.data.set register
            (writeSlice (resizeList reg_data (offset + data.length)) offset data) }
    else
      .ok { ctx with
        data := ctx.data.set register (writeSlice reg_data offset data) }

/-- The `Basic::get_bytes` implementation of `RpdoContext::get_bytes`:
`data_size = 0` is replaced by `reg_data.len() - offset` (wrapping `usize`
subtraction); an offset strictly past the end fails `InvalidOffset` unless
flexible (then all-zero bytes are returned); a read running past the end is
truncated, and fails `InvalidOffset` unless flexible (then zero padded). -/
def BasicCtx.get_bytes (ctx : BasicCtx) (register offset data_size : Nat) :
    Except Error (List Nat) :=
  match ctx.data.get? register with
  | none => .error .InvalidRegister
  | some reg_data =>
    let data_size :=
      if data_size = 0 then usizeSub reg_data.length offset else data_size
    if offset > reg_data.length then
      if !ctx.register_flexible then .error .InvalidOffset
      else .ok (List.replicate data_size 0)
    else
      let result :=
        (reg_data.drop offset).take (min reg_data.length (offset + data_size) - offset)
      if result.length < data_size then
        if !ctx.register_flexible then .error .InvalidOffset
        else .ok (result ++ List.replicate (data_size - result.length) 0)
      else .ok result

/-! ## Wire layer (src/comm.rs) -/

/-- The current protocol version (`VERSION`). -/
def VERSION : Nat := 0x00

/-- The `Command` enum over the 16-bit code space. -/
inductive Command where
  | Reply
  | Error
  | Ping
  | ReadSharedContext
  | WriteSharedContext
  | WriteSharedContextUnconfirmed
  | Other (value : Nat)
deriving Repr, DecidableEq

/-- The `impl From<u16> for Command` decoding of a command code. -/
def Command.ofCode (value : Nat) : Command :=
  if value = 0x0000 then .Reply
  else if value = 0x0002 then .Ping
  else if value = 0x0001 then .Error
  else if value = 0x0100 then .ReadSharedContext
  else if value = 0x0101 then .WriteSharedContext
  else if value = 0x0102 then .WriteSharedContextUnconfirmed
  else .Other value

/-- The `Command::code` method. -/
def Command.code : Command → Nat
  | .Reply => 0x0000
  | .Ping => 0x0002
  | .Error => 0x0001
  | .ReadSharedContext => 0x0100
  | .WriteSharedContext => 0x0101
  | .WriteSharedContextUnconfirmed => 0x0102
  | .Other value => value

/-- A command is well formed when its code is a 16-bit value that decodes
back to it (this excludes `Other` wrapping a standard code, which the wire
cannot represent distinctly). -/
def Command.wf (c : Command) : Prop := Command.ofCode c.code = c ∧ c.code < 2 ^ 16

instance : DecidablePred Command.wf := fun c => by unfold Command.wf; infer_instance

/-- The `Frame` structure of src/comm.rs: four `u32` fields and the 16-bit
command. -/
structure Frame where
  source : Nat
  target : Nat
  id : Nat
  in_reply_to : Nat
  command : Command
deriving Repr, DecidableEq

/-- The `Frame::SIZE` constant.  Note the binrw little-endian encoding of a
frame is only 18 bytes; the extra byte is zero padding in every packet. -/
def Frame.SIZE : Nat := 19

/-- A frame is well formed when its `u32` fields are 32-bit values and its
command is well formed. -/
def Frame.wf (f : Frame) : Prop :=
  f.source < 2 ^ 32 ∧ f.target < 2 ^ 32 ∧ f.id < 2 ^ 32 ∧ f.in_reply_to < 2 ^ 32 ∧
    f.command.wf

instance : DecidablePred Frame.wf := fun f => by unfold Frame.wf; infer_instance

/-- The `Frame::to_reply` method: swap source and target, set `in_reply_to`
to the original id, pick `Error` or `Reply` as the command. -/
def Frame.to_reply (f : Frame) (id : Nat) (error : Bool) : Frame :=
  { source := f.target
    target := f.source
    id := id
    in_reply_to := f.id
    command := if error then .Error else .Reply }

/-- The binrw little-endian byte encoding of a frame (18 bytes). -/
def frameBytes (f : Frame) : List Nat :=
  u32le f.source ++ u32le f.target ++ u32le f.id ++ u32le f.in_reply_to ++
    u16le f.command.code

/-- The `PacketHeader` structure: version and declared size (magic handled
by the codec). -/
structure PacketHeader where
  version : Nat
  size : Nat
deriving Repr, DecidableEq

/-- The `PacketHeader::SIZE` constant (magic + version + size). -/
def PacketHeader.SIZE : Nat := 7

/-- The binrw encoding of a packet header: magic bytes of the characters R
and D, the version byte, the 32-bit little-endian size. -/
def packetHeaderBytes (size : Nat) : List Nat := [0x52, 0x44, VERSION] ++ u32le size

/-- The `Packet` structure: a frame plus the declared payload length. -/
structure Packet where
  frame : Frame
  data_len : Nat
deriving Repr, DecidableEq

/-- Placeholder message bytes of an I/O error raised by `read_exact` on a
short stream (the message text is irrelevant to every property below). -/
def ioEofMsg : List Nat := []

/-- Placeholder message bytes of a binrw decoding error (bad magic or an
unexpected end of the cursor); the text is irrelevant to every property
below. -/
def binrwErrMsg : List Nat := []

/-- The `read_exact` operation on a byte stream: the first `n` bytes and the
remaining stream, or an I/O error (mapped to `Error::Io`) when the stream is
shorter than `n`. -/
def readExact (n : Nat) (s : List Nat) : Except Error (List Nat × List Nat) :=
  if n ≤ s.length then .ok (s.take n, s.drop n) else .error (.Io ioEofMsg)

/-- The binrw read of a `PacketHeader` from a 7-byte buffer: check the magic
bytes, then read version and little-endian size.  A bad magic is a binrw
error, which `From<binrw::Error>` turns into `Error::Packer`. -/
def parsePacketHeader (buf : List Nat) : Except Error PacketHeader :=
  match buf with
  | m0 :: m1 :: v :: s0 :: s1 :: s2 :: s3 :: _ =>
    if m0 = 0x52 ∧ m1 = 0x44 then .ok { version := v, size := leVal [s0, s1, s2, s3] }
    else .error (.Packer binrwErrMsg)
  | _ => .error (.Packer binrwErrMsg)

/-- The binrw read of a `Frame` from a buffer (consumes 18 bytes, ignores the
rest); a short buffer is a binrw error mapped to `Error::Packer`. -/
def parseFrame (buf : List Nat) : Except Error Frame :=
  match buf with
  | s0 :: s1 :: s2 :: s3 :: t0 :: t1 :: t2 :: t3 :: i0 :: i1 :: i2 :: i3 ::
      r0 :: r1 :: r2 :: r3 :: c0 :: c1 :: _ =>
    .ok { source := leVal [s0, s1, s2, s3]
          target := leVal [t0, t1, t2, t3]
          id := leVal [i0, i1, i2, i3]
          in_reply_to := leVal [r0, r1, r2, r3]
          command := Command.ofCode (leVal [c0, c1]) }
  | _ => .error (.Packer binrwErrMsg)

/-- The `Packet::write_to` method: fails `Overflow` when `data_len + 19` does
not fit a `u32`; otherwise emits the 26-byte buffer holding the 7-byte header
and the frame.  The buffer is zero initialized and the cursor writes
7 + 18 bytes, so one trailing zero byte of frame padding is emitted; the
payload itself is written separately by the caller. -/
def Packet.write_to (p : Packet) : Except Error (List Nat) :=
  if p.data_len + Frame.SIZE < 2 ^ 32 then
    .ok (packetHeaderBytes (p.data_len + Frame.SIZE) ++ frameBytes p.frame ++ [0])
  else .error .Overflow

/-- The `Packet::read_from` method: read 7 header bytes, parse and check
magic, version (`UnsupportedVersion`) and minimum size (`InvalidData`), then
read 19 frame bytes and parse the frame.  Returns the packet and the rest of
the stream. -/
def Packet.read_from (input : List Nat) : Except Error (Packet × List Nat) :=
  match readExact PacketHeader.SIZE input with
  | .error e => .error e
  | .ok (headerBuf, rest) =>
    match parsePacketHeader headerBuf with
    | .error e => .error e
    | .ok header =>
      if header.version ≠ VERSION then .error .UnsupportedVersion
      else if header.size < Frame.SIZE then .error .InvalidData
      else
        match readExact Frame.SIZE rest with
        | .error e => .error e
        | .ok (frameBuf, rest2) =>
          match parseFrame frameBuf with
          | .error e => .error e
          | .ok frame =>
            .ok ({ frame := frame, data_len := header.size - Frame.SIZE }, rest2)

/-- One full packet encode, as performed by the client and server write
paths: `Packet::write_to` of the frame with the payload length, followed by
the payload bytes. -/
def encodePacket (f : Frame) (payload : List Nat) : Except Error (List Nat) :=
  match Packet.write_to { frame := f, data_len := payload.length } with
  | .error e => .error e
  | .ok head => .ok (head ++ payload)

/-- One full packet decode, as performed by the client and server read paths:
`Packet::read_from`, then `read_exact` of `data_len` payload bytes. -/
def decodePacket (input : List Nat) : Except Error (Frame × List Nat) :=
  match Packet.read_from input with
  | .error e => .error e
  | .ok (packet, rest) =>
    match readExact packet.data_len rest with
    | .error e => .error e
    | .ok (payload, _) => .ok (packet.frame, payload)

/-! ## Host dispatcher (src/host.rs) -/

/-- The mutable state of a `Host` handle relevant to dispatching: the host id
and the atomic frame-id counter. -/
structure HostSt where
  id : Nat
  next_frame_id : Nat
deriving Repr, DecidableEq

/-- The `create_frame` method: the new frame takes the current counter value
as id (`fetch_add` returns the previous value, wrapping as a `u32`). -/
def create_frame (h : HostSt) (target in_reply_to : Nat) (command : Command) :
    Frame × HostSt :=
  ({ source := h.id, target := target, id := h.next_frame_id,
     in_reply_to := in_reply_to, command := command },
   { h with next_frame_id := (h.next_frame_id + 1) % 2 ^ 32 })

/-- The `host_id_matches` method: a frame is accepted when its target is the
host id or the broadcast id 0. -/
def host_id_matches (h : HostSt) (frame : Frame) : Bool :=
  frame.target == h.id || frame.target == 0

/-- The binrw read of a `RawDataHeader` from the payload (consumes 12 bytes,
ignores the rest); a short payload is a binrw error mapped to `Packer`. -/
def readRawDataHeader (data : List Nat) : Except Error (Nat × Nat × Nat) :=
  match data with
  | r0 :: r1 :: r2 :: r3 :: o0 :: o1 :: o2 :: o3 :: s0 :: s1 :: s2 :: s3 :: _ =>
    .ok (leVal [r0, r1, r2, r3], leVal [o0, o1, o2, o3], leVal [s0, s1, s2, s3])
  | _ => .error (.Packer binrwErrMsg)

/-- A custom command handler (`dyn CustomCommandHandler`), a pure function in
this embedding. -/
def Handler : Type := Frame → List Nat → Except Error (Option (List Nat))

/-- The command dispatch of `process_frame` (the second `match` statement),
reached only for accepted frames whose command is neither `Reply` nor
`Error`.  Generic over the context type and its `get_bytes` and `set_bytes`
operations, like `Host<CTX>`. -/
def dispatch_command {σ : Type}
    (get_bytes : σ → Nat → Nat → Nat → Except Error (List Nat))
    (set_bytes : σ → Nat → Nat → List Nat → Except Error σ)
    (handler : Option Handler) (h : HostSt) (ctx : σ) (frame : Frame)
    (data : List Nat) :
    Except Error (Option (Frame × List Nat)) × HostSt × σ :=
  match frame.command with
  | .Ping =>
    let (rf, h2) := create_frame h frame.source frame.id .Reply
    (.ok (some (rf, [])), h2, ctx)
  | .ReadSharedContext =>
    match readRawDataHeader data with
    | .error e => (.error e, h, ctx)
    | .ok (register, offset, size) =>
      match get_bytes ctx register offset size with
      | .ok v =>
        let (rf, h2) := create_frame h frame.source frame.id .Reply
        (.ok (some (rf, v)), h2, ctx)
      | .error e =>
        let (rf, h2) := create_frame h frame.source frame.id .Error
        (.ok (some (rf, e.encode)), h2, ctx)
  | .WriteSharedContext | .WriteSharedContextUnconfirmed =>
    match readRawDataHeader data with
    | .error e => (.error e, h, ctx)
    | .ok (register, offset, size) =>
      let raw_data := data.drop 12
      if raw_data.length < 2 ^ 32 then
        if size ≠ raw_data.length then (.error .InvalidData, h, ctx)
        else
          match set_bytes ctx register offset raw_data with
          | .ok ctx2 =>
            if frame.command = .WriteSharedContext then
              let (rf, h2) := create_frame h frame.source frame.id .Reply
              (.ok (some (rf, [])), h2, ctx2)
            else (.ok none, h, ctx2)
          | .error e =>
            let (rf, h2) := create_frame h frame.source frame.id .Error
            (.ok (some (rf, e.encode)), h2, ctx)
      else (.error .Overflow, h, ctx)
  | _ =>
    match handler with
    | some hh =>
      match hh frame data with
      | .ok (some v) =>
        let (rf, h2) := create_frame h frame.source frame.id .Reply
        (.ok (some (rf, v)), h2, ctx)
      | .ok none => (.ok none, h, ctx)
      | .error e =>
        let (rf, h2) := create_frame h frame.source frame.id .Error
        (.ok (some (rf, e.encode)), h2, ctx)
    | none =>
      let (rf, h2) := create_frame h frame.source frame.id .Error
      (.ok (some (rf, Error.encode .InvalidCommand)), h2, ctx)

/-- The `process_frame` method of `SyncHost for Host<CTX>`: swallow stray
`Reply` and `Error` frames, answer a mismatched target with one `UnknownHost`
error reply, otherwise dispatch the command. -/
def process_frame {σ : Type}
    (get_bytes : σ → Nat → Nat → Nat → Except Error (List Nat))
    (set_bytes : σ → Nat → Nat → List Nat → Except Error σ)
    (handler : Option Handler) (h : HostSt) (ctx : σ) (frame : Frame)
    (data : List Nat) :
    Except Error (Option (Frame × List Nat)) × HostSt × σ :=
  if frame.command = .Reply then (.ok none, h, ctx)
  else if frame.command = .Error then (.ok none, h, ctx)
  else if !host_id_matches h frame then
    let (rf, h2) := create_frame h frame.source frame.id .Error
    (.ok (some (rf, Error.encode .UnknownHost)), h2, ctx)
  else dispatch_command get_bytes set_bytes handler h ctx frame data

/-! ## Stream client and UDP adapter (src/io.rs) -/

/-- Kinds of `std::io::Error` raised by `UdpStream::flush`. -/
inductive IoErrKind where
  | NotConnected
  | InvalidInput
deriving Repr, DecidableEq

/-- The state of a `UdpStream`: the recorded peer (socket addresses are
abstracted to an opaque numeric key), the read and write buffers and the mtu.
The socket handle itself carries no state relevant to the properties below. -/
structure UdpStream where
  peer : Option Nat
  read_buffer : List Nat
  write_buffer : List Nat
  mtu : Nat
deriving Repr, DecidableEq

/-- The `Write::write` implementation of `UdpStream`: append to the internal
write buffer, report the full length as written. -/
def UdpStream.write (s : UdpStream) (buf : List Nat) : UdpStream × Nat :=
  ({ s with write_buffer := s.write_buffer ++ buf }, buf.length)

/-- The `Write::flush` implementation of `UdpStream`: `mem::take` empties the
write buffer first; then fail `NotConnected` without a peer, `InvalidInput`
when the taken data exceeds the mtu, otherwise send the data as one datagram
(the datagram itself leaves the modelled state; transport errors of `send_to`
do not touch the buffer either). -/
def UdpStream.flush (s : UdpStream) : UdpStream × Except IoErrKind Unit :=
  let data := s.write_buffer
  let s2 := { s with write_buffer := [] }
  match s2.peer with
  | none => (s2, .error .NotConnected)
  | some _ =>
    if data.length > s2.mtu then (s2, .error .InvalidInput)
    else (s2, .ok ())

/-- The reply-receiving phase of `SimpleClient::communicate` with
`wait_reply = true` (io.rs lines 206 to 214): read one packet, read its
payload, fail `InvalidReply` unless the reply targets id 0 and correlates
with the request id, otherwise return the payload.  The frame command is
never inspected here. -/
def communicate_recv (request_id : Nat) (input : List Nat) :
    Except Error (Option (List Nat)) :=
  match Packet.read_from input with
  | .error e => .error e
  | .ok (packet, rest) =>
    match readExact packet.data_len rest with
    | .error e => .error e
    | .ok (payload, _) =>
      if packet.frame.target ≠ 0 ∨ packet.frame.in_reply_to ≠ request_id then
        .error .InvalidReply
      else .ok (some payload)

/-! ## Helper lemmas -/

instance {ε α : Type} [DecidableEq ε] [DecidableEq α] :
    DecidableEq (Except ε α) := fun x y =>
  match x, y with
  | .ok a, .ok b =>
    if h : a = b then isTrue (by rw [h])
    else isFalse (fun hc => by cases hc; exact h rfl)
  | .error e, .error f =>
    if h : e = f then isTrue (by rw [h])
    else isFalse (fun hc => by cases hc; exact h rfl)
  | .ok _, .error _ => isFalse (fun hc => Except.noConfusion hc)
  | .error _, .ok _ => isFalse (fun hc => Except.noConfusion hc)

/-- A successful `get?` bounds the index. -/
theorem get?_some_lt {α : Type} {l : List α} {i : Nat} {b : α}
    (h : l.get? i = some b) : i < l.length := by
  by_contra hlt
  rw [List.get?_eq_none.mpr (Nat.le_of_not_lt hlt)] at h
  exact Option.noConfusion h

/-- Reading back the register just written in the bank. -/
theorem get?_set_same {α : Type} {l : List α} {i : Nat} {b : α} (a : α)
    (h : l.get? i = some b) : (l.set i a).get? i = some a :=
  List.get?_set_eq_of_lt a (get?_some_lt h)

/-- Length of `writeSlice` when the write fits in the vector. -/
theorem writeSlice_length {v data : List Nat} {offset : Nat}
    (h : offset + data.length ≤ v.length) :
    (writeSlice v offset data).length = v.length := by
  simp only [writeSlice, List.length_append, List.length_take, List.length_drop]
  omega

/-- The bytes just written by `writeSlice` read back exactly. -/
theorem writeSlice_read {v data : List Nat} {offset : Nat}
    (h : offset ≤ v.length) :
    ((writeSlice v offset data).drop offset).take data.length = data := by
  unfold writeSlice
  rw [List.append_assoc, List.drop_left' (by simp [List.length_take]; omega),
    List.take_left' rfl]

/-- Length of `resizeList` when growing. -/
theorem resizeList_length {v : List Nat} {n : Nat} (h : v.length ≤ n) :
    (resizeList v n).length = n := by
  simp only [resizeList, List.length_append, List.length_take, List.length_replicate]
  omega

/-- Wrapping `usize` subtraction agrees with truncated subtraction in range. -/
theorem usizeSub_eq {a b : Nat} (hb : b ≤ a) (ha : a < 2 ^ 64) :
    usizeSub a b = a - b := by
  have hp : (2 : Nat) ^ 64 = 18446744073709551616 := by norm_num
  unfold usizeSub
  rw [hp] at *
  omega

/-! ## Claim theorems -/

/-- C10: after every call to `UdpStream.flush` the internal write buffer is
empty, including when flush fails with `NotConnected` or `InvalidInput`:
bytes buffered by `write` are discarded, not retained, on error returns. -/
theorem flush_clears_write_buffer (s : UdpStream) :
    (UdpStream.flush s).1.write_buffer = [] := by
  rcases s with ⟨p, rb, wb, m⟩
  cases p
  · rfl
  · simp only [UdpStream.flush]
    split <;> rfl

/-- C3 counterexample: encoding the `Packer` error (code 0x0010) and decoding
the payload yields a `Failed` error with code 0x0000, so the decode-encode
code roundtrip fails on the `Packer` variant. -/
theorem error_code_roundtrip_packer_cex :
    (Error.decode (Error.encode (.Packer []))).code = ERR_FAILED ∧
      (Error.Packer ([] : List Nat)).code = ERR_PACKER ∧
      (Error.decode (Error.encode (.Packer []))).code ≠
        (Error.Packer ([] : List Nat)).code := by
  refine ⟨rfl, rfl, ?_⟩
  decide

/-- C3 (amended): for every error value that is not a `Packer` variant,
decoding the wire payload produced by encoding it yields an error with the
same code; the `Packer` variant alone decodes to `Failed` (code 0x0000). -/
theorem error_code_roundtrip_no_packer (err : Error)
    (hp : ∀ m, err ≠ .Packer m) :
    (Error.decode (Error.encode err)).code = err.code := by
  cases err
  case Packer m => exact absurd rfl (hp m)
  all_goals
    simp [Error.encode, Error.decode, Error.code, u16le, leVal,
      ERR_UNKNOWN_HOST, ERR_INVALID_COMMAND, ERR_INVALID_REGISTER,
      ERR_INVALID_OFFSET, ERR_INVALID_REPLY, ERR_OVERFLOW, ERR_INVALID_VERSION,
      ERR_IO, ERR_INVALID_DATA, ERR_PACKER, ERR_FAILED]
  all_goals
    rw [if_neg (by omega)]

/-- C3 witness: the roundtrip theorem applied to the `UnknownHost` error. -/
theorem error_code_roundtrip_no_packer_witness :
    (∀ m, Error.UnknownHost ≠ .Packer m) ∧
      (Error.decode (Error.encode .UnknownHost)).code = Error.UnknownHost.code :=
  ⟨fun _ h => Error.noConfusion h,
   error_code_roundtrip_no_packer .UnknownHost (fun _ h => Error.noConfusion h)⟩

/-- C5 counterexample: on a non-flexible context with one register of two
bytes, a zero-size read at offset 3 (past the end) fails with
`InvalidOffset` instead of succeeding. -/
theorem get_bytes_size_zero_cex :
    BasicCtx.get_bytes { data := [[0, 0]], register_flexible := false } 0 3 0 =
      .error .InvalidOffset := by
  decide

/-- C5 (amended): for every Basic context, in-range register and offset at
most the register length, a zero-size read succeeds and returns exactly the
bytes from the offset to the end of the register (the empty vector when the
offset equals the length). -/
theorem get_bytes_size_zero_reads_to_end (ctx : BasicCtx) (r off : Nat)
    (reg : List Nat) (hr : ctx.data.get? r = some reg)
    (hoff : off ≤ reg.length) (hlen : reg.length < 2 ^ 64) :
    BasicCtx.get_bytes ctx r off 0 = .ok (reg.drop off) := by
  unfold BasicCtx.get_bytes
  rw [hr]
  dsimp only
  have e0 : (if (0 : Nat) = 0 then usizeSub reg.length off else (0 : Nat)) =
      reg.length - off := by
    rw [if_pos rfl, usizeSub_eq hoff hlen]
  rw [e0, if_neg (by omega)]
  have hmin : min reg.length (off + (reg.length - off)) - off = reg.length - off := by
    omega
  rw [hmin, ← List.length_drop, List.take_length, if_neg (by simp)]

/-- C5 witness: the zero-size read theorem applied to a concrete context. -/
theorem get_bytes_size_zero_reads_to_end_witness :
    ({ data := [[7, 8]], register_flexible := false } : BasicCtx).data.get? 0 =
        some [7, 8] ∧
      1 ≤ ([7, 8] : List Nat).length ∧ ([7, 8] : List Nat).length < 2 ^ 64 ∧
      BasicCtx.get_bytes { data := [[7, 8]], register_flexible := false } 0 1 0 =
        .ok (([7, 8] : List Nat).drop 1) :=
  ⟨rfl, by decide, by decide,
   get_bytes_size_zero_reads_to_end _ 0 1 [7, 8] rfl (by decide) (by decide)⟩

/-- C6 counterexample: writing the empty byte sequence succeeds, but the
subsequent `get_bytes` with size 0 reads from the offset to the end of the
register, returning the whole register instead of the empty sequence. -/
theorem set_get_roundtrip_cex :
    BasicCtx.set_bytes { data := [[9, 9]], register_flexible := false } 0 0 [] =
        .ok { data := [[9, 9]], register_flexible := false } ∧
      BasicCtx.get_bytes { data := [[9, 9]], register_flexible := false } 0 0
          (List.length ([] : List Nat)) = .ok [9, 9] ∧
      ([9, 9] : List Nat) ≠ [] := by
  refine ⟨by decide, by decide, by decide⟩

/-- C6 (amended): for every register, offset and nonempty byte sequence such
that `set_bytes` succeeds, a subsequent `get_bytes` of the same register,
offset and length on the updated context returns exactly the written data. -/
theorem set_get_roundtrip (ctx ctx2 : BasicCtx) (r off : Nat)
    (data : List Nat) (hne : data ≠ [])
    (hset : BasicCtx.set_bytes ctx r off data = .ok ctx2) :
    BasicCtx.get_bytes ctx2 r off data.length = .ok data := by
  have hn : 0 < data.length := List.length_pos.mpr hne
  unfold BasicCtx.set_bytes at hset
  cases hget : ctx.data.get? r with
  | none => rw [hget] at hset; exact Except.noConfusion hset
  | some reg =>
    rw [hget] at hset
    dsimp only at hset
    by_cases hfit : reg.length < off + data.length
    · rw [if_pos hfit] at hset
      cases hflex : ctx.register_flexible with
      | false => rw [hflex] at hset; simp at hset
      | true =>
        rw [hflex] at hset
        simp at hset
        subst hset
        have hrlen : (resizeList reg (off + data.length)).length = off + data.length :=
          resizeList_length (by omega)
        have hwlen :
            (writeSlice (resizeList reg (off + data.length)) off data).length =
              off + data.length := by
          rw [writeSlice_length (by omega)]; exact hrlen
        unfold BasicCtx.get_bytes
        simp only [get?_set_same _ hget]
        rw [if_neg (show ¬(data.length = 0) by omega)]
        rw [if_neg (by omega)]
        have hmin :
            min (writeSlice (resizeList reg (off + data.length)) off data).length
              (off + data.length) - off = data.length := by
          rw [hwlen]; omega
        rw [hmin, writeSlice_read (by omega), if_neg (by omega)]
    · rw [if_neg hfit] at hset
      simp at hset
      subst hset
      have hwlen : (writeSlice reg off data).length = reg.length :=
        writeSlice_length (by omega)
      unfold BasicCtx.get_bytes
      simp only [get?_set_same _ hget]
      rw [if_neg (show ¬(data.length = 0) by omega)]
      rw [if_neg (by omega)]
      have hmin : min (writeSlice reg off data).length (off + data.length) - off =
          data.length := by
        rw [hwlen]; omega
      rw [hmin, writeSlice_read (by omega), if_neg (by omega)]

/-- C6 witness: the set-get roundtrip theorem applied to a concrete write. -/
theorem set_get_roundtrip_witness :
    ([5, 6] : List Nat) ≠ [] ∧
      BasicCtx.set_bytes { data := [[0, 0, 0, 0]], register_flexible := false } 0 1
          [5, 6] = .ok { data := [[0, 5, 6, 0]], register_flexible := false } ∧
      BasicCtx.get_bytes { data := [[0, 5, 6, 0]], register_flexible := false } 0 1
          ([5, 6] : List Nat).length = .ok [5, 6] :=
  ⟨by decide, by decide,
   set_get_roundtrip { data := [[0, 0, 0, 0]], register_flexible := false }
     { data := [[0, 5, 6, 0]], register_flexible := false } 0 1 [5, 6]
     (by decide) (by decide)⟩

/-- C1: the claim is right and the code is wrong.  For a reply packet whose
frame passes the correlation check but whose command is `Error` (here
carrying the encoded `InvalidRegister` error, bytes 0x03 0x00), the receive
phase of `SimpleClient::communicate` returns the raw error payload as a
successful result instead of decoding it into a typed error and failing: the
reply command is never inspected. -/
theorem client_error_reply_returned_as_payload :
    encodePacket { source := 1, target := 0, id := 7, in_reply_to := 0,
                   command := .Error } [3, 0] =
      .ok [82, 68, 0, 21, 0, 0, 0, 1, 0, 0, 0, 0, 0, 0, 0, 7, 0, 0, 0, 0, 0, 0, 0,
        1, 0, 0, 3, 0] ∧
    communicate_recv 0 [82, 68, 0, 21, 0, 0, 0, 1, 0, 0, 0, 0, 0, 0, 0, 7, 0, 0, 0,
        0, 0, 0, 0, 1, 0, 0, 3, 0] = .ok (some [3, 0]) := by
  refine ⟨by decide, by decide⟩

/-- C2 counterexample: a `WriteSharedContext` frame addressed to the host
whose payload declares size 5 but carries only 3 trailing bytes makes
`process_frame` return the error `InvalidData` (which `process_next`
propagates, aborting the connection loop) instead of producing an `Error`
reply. -/
theorem write_size_mismatch_cex :
    (process_frame BasicCtx.get_bytes BasicCtx.set_bytes none
        { id := 1, next_frame_id := 0 }
        { data := [[0, 0, 0, 0]], register_flexible := false }
        { source := 0, target := 1, id := 0, in_reply_to := 0,
          command := .WriteSharedContext }
        (u32le 0 ++ u32le 0 ++ u32le 5 ++ [1, 2, 3])).1 =
      .error .InvalidData := by
  decide

/-- C2 (amended): for every write frame accepted by the host whose payload
parses to a `RawDataHeader` with a declared size differing from the actual
trailing byte count, `process_frame` returns `Err(InvalidData)` — which the
server loop propagates, aborting the connection — rather than converting the
failure into an `Error` reply. -/
theorem write_size_mismatch_returns_err {σ : Type}
    (get_bytes : σ → Nat → Nat → Nat → Except Error (List Nat))
    (set_bytes : σ → Nat → Nat → List Nat → Except Error σ)
    (handler : Option Handler) (h : HostSt) (ctx : σ) (frame : Frame)
    (data : List Nat) (register offset size : Nat)
    (hc : frame.command = .WriteSharedContext ∨
      frame.command = .WriteSharedContextUnconfirmed)
    (hm : host_id_matches h frame = true)
    (hhdr : readRawDataHeader data = .ok (register, offset, size))
    (hlt : (data.drop 12).length < 2 ^ 32)
    (hsz : size ≠ (data.drop 12).length) :
    (process_frame get_bytes set_bytes handler h ctx frame data).1 =
      .error .InvalidData := by
  unfold process_frame
  have hc1 : ¬(frame.command = .Reply) := by rcases hc with h1 | h1 <;> simp [h1]
  have hc2 : ¬(frame.command = .Error) := by rcases hc with h1 | h1 <;> simp [h1]
  rw [if_neg hc1, if_neg hc2, if_neg (by simp [hm])]
  unfold dispatch_command
  rcases hc with h1 | h1 <;>
    simp only [h1] <;> rw [hhdr] <;> dsimp only <;>
    rw [if_pos hlt, if_pos hsz]

/-- C2 witness: the amended theorem applied to a concrete mismatched write. -/
theorem write_size_mismatch_returns_err_witness :
    (({ source := 0, target := 1, id := 0, in_reply_to := 0,
        command := .WriteSharedContext } : Frame).command = .WriteSharedContext ∨
      ({ source := 0, target := 1, id := 0, in_reply_to := 0,
         command := .WriteSharedContext } : Frame).command =
        .WriteSharedContextUnconfirmed) ∧
    (process_frame BasicCtx.get_bytes BasicCtx.set_bytes none
        { id := 1, next_frame_id := 0 }
        { data := [[0, 0, 0, 0]], register_flexible := false }
        { source := 0, target := 1, id := 0, in_reply_to := 0,
          command := .WriteSharedContext }
        (u32le 0 ++ u32le 0 ++ u32le 7 ++ [1, 2, 3, 4])).1 =
      .error .InvalidData :=
  ⟨Or.inl rfl,
   write_size_mismatch_returns_err BasicCtx.get_bytes BasicCtx.set_bytes none
     { id := 1, next_frame_id := 0 }
     { data := [[0, 0, 0, 0]], register_flexible := false }
     { source := 0, target := 1, id := 0, in_reply_to := 0,
       command := .WriteSharedContext }
     (u32le 0 ++ u32le 0 ++ u32le 7 ++ [1, 2, 3, 4]) 0 0 7
     (Or.inl rfl) (by decide) (by decide) (by decide) (by decide)⟩

/-- C7: for every frame whose command is neither `Reply` nor `Error`, a
target matching neither the host id nor 0 yields exactly one `Error` reply
whose payload is the encoded `UnknownHost` error (bytes 0x01 0x00), and the
host dispatches the command exactly when the target is its own id or 0. -/
theorem unknown_host_error_reply {σ : Type}
    (get_bytes : σ → Nat → Nat → Nat → Except Error (List Nat))
    (set_bytes : σ → Nat → Nat → List Nat → Except Error σ)
    (handler : Option Handler) (h : HostSt) (ctx : σ) (frame : Frame)
    (data : List Nat)
    (hc1 : frame.command ≠ .Reply) (hc2 : frame.command ≠ .Error) :
    (frame.target ≠ h.id ∧ frame.target ≠ 0 →
      process_frame get_bytes set_bytes handler h ctx frame data =
        (.ok (some ({ source := h.id, target := frame.source,
                      id := h.next_frame_id, in_reply_to := frame.id,
                      command := .Error },
            Error.encode .UnknownHost)),
         { h with next_frame_id := (h.next_frame_id + 1) % 2 ^ 32 }, ctx)) ∧
    Error.encode .UnknownHost = [0x01, 0x00] ∧
    (frame.target = h.id ∨ frame.target = 0 →
      process_frame get_bytes set_bytes handler h ctx frame data =
        dispatch_command get_bytes set_bytes handler h ctx frame data) := by
  refine ⟨?_, by decide, ?_⟩
  · rintro ⟨ht1, ht2⟩
    unfold process_frame
    rw [if_neg hc1, if_neg hc2, if_pos (by simp [host_id_matches, ht1, ht2])]
    rfl
  · intro hm
    unfold process_frame
    have hmb : host_id_matches h frame = true := by
      rcases hm with h1 | h1 <;> simp [host_id_matches, h1]
    rw [if_neg hc1, if_neg hc2, if_neg (by simp [hmb])]

/-- C7 witness: the unknown-host theorem applied to a ping addressed to host
id 2 arriving at host id 1. -/
theorem unknown_host_error_reply_witness :
    (({ source := 0, target := 2, id := 5, in_reply_to := 0,
        command := .Ping } : Frame).command ≠ .Reply) ∧
    (({ source := 0, target := 2, id := 5, in_reply_to := 0,
        command := .Ping } : Frame).command ≠ .Error) ∧
    process_frame BasicCtx.get_bytes BasicCtx.set_bytes none
        { id := 1, next_frame_id := 0 }
        { data := [[0]], register_flexible := false }
        { source := 0, target := 2, id := 5, in_reply_to := 0, command := .Ping }
        [] =
      (.ok (some ({ source := 1, target := 0, id := 0, in_reply_to := 5,
                    command := .Error },
          Error.encode .UnknownHost)),
       { id := 1, next_frame_id := (0 + 1) % 2 ^ 32 },
       { data := [[0]], register_flexible := false }) :=
  ⟨by decide, by decide,
   (unknown_host_error_reply BasicCtx.get_bytes BasicCtx.set_bytes none
       { id := 1, next_frame_id := 0 }
       { data := [[0]], register_flexible := false }
       { source := 0, target := 2, id := 5, in_reply_to := 0, command := .Ping }
       [] (by decide) (by decide)).1 ⟨by decide, by decide⟩⟩

/-- C8: for every valid unconfirmed write accepted by the host (parseable
header, declared size equal to the trailing byte count), a successful
`set_bytes` yields no reply and the unchanged frame counter, while a failing
`set_bytes` yields exactly one `Error` reply carrying the encoded failure. -/
theorem unconfirmed_write_reply_policy {σ : Type}
    (get_bytes : σ → Nat → Nat → Nat → Except Error (List Nat))
    (set_bytes : σ → Nat → Nat → List Nat → Except Error σ)
    (handler : Option Handler) (h : HostSt) (ctx : σ) (frame : Frame)
    (data : List Nat) (register offset size : Nat)
    (hc : frame.command = .WriteSharedContextUnconfirmed)
    (hm : host_id_matches h frame = true)
    (hhdr : readRawDataHeader data = .ok (register, offset, size))
    (hlt : (data.drop 12).length < 2 ^ 32)
    (hsz : size = (data.drop 12).length) :
    (∀ ctx2, set_bytes ctx register offset (data.drop 12) = .ok ctx2 →
      process_frame get_bytes set_bytes handler h ctx frame data =
        (.ok none, h, ctx2)) ∧
    (∀ e, set_bytes ctx register offset (data.drop 12) = .error e →
      process_frame get_bytes set_bytes handler h ctx frame data =
        (.ok (some ({ source := h.id, target := frame.source,
                      id := h.next_frame_id, in_reply_to := frame.id,
                      command := .Error },
            Error.encode e)),
         { h with next_frame_id := (h.next_frame_id + 1) % 2 ^ 32 }, ctx)) := by
  have hred : process_frame get_bytes set_bytes handler h ctx frame data =
      (match set_bytes ctx register offset (data.drop 12) with
       | .ok ctx2 => (.ok none, h, ctx2)
       | .error e =>
         (.ok (some ({ source := h.id, target := frame.source,
                       id := h.next_frame_id, in_reply_to := frame.id,
                       command := .Error },
             Error.encode e)),
          { h with next_frame_id := (h.next_frame_id + 1) % 2 ^ 32 }, ctx)) := by
    unfold process_frame
    rw [if_neg (by simp [hc]), if_neg (by simp [hc]), if_neg (by simp [hm])]
    unfold dispatch_command
    simp only [hc]
    rw [hhdr]
    dsimp only
    rw [if_pos hlt, if_neg (by simp [hsz])]
    rcases hs : set_bytes ctx register offset (data.drop 12) with e | ctx2 <;>
      simp [create_frame]
  constructor
  · intro ctx2 hs
    rw [hred, hs]
  · intro e hs
    rw [hred, hs]

/-- C8 witness: the unconfirmed-write theorem applied to a concrete
successful write (no reply, context updated). -/
theorem unconfirmed_write_reply_policy_witness :
    (({ source := 0, target := 1, id := 9, in_reply_to := 0,
        command := .WriteSharedContextUnconfirmed } : Frame).command =
      .WriteSharedContextUnconfirmed) ∧
    process_frame BasicCtx.get_bytes BasicCtx.set_bytes none
        { id := 1, next_frame_id := 4 }
        { data := [[0, 0, 0, 0]], register_flexible := false }
        { source := 0, target := 1, id := 9, in_reply_to := 0,
          command := .WriteSharedContextUnconfirmed }
        (u32le 0 ++ u32le 0 ++ u32le 2 ++ [5, 6]) =
      (.ok none, { id := 1, next_frame_id := 4 },
       { data := [[5, 6, 0, 0]], register_flexible := false }) :=
  ⟨rfl,
   (unconfirmed_write_reply_policy BasicCtx.get_bytes BasicCtx.set_bytes none
       { id := 1, next_frame_id := 4 }
       { data := [[0, 0, 0, 0]], register_flexible := false }
       { source := 0, target := 1, id := 9, in_reply_to := 0,
         command := .WriteSharedContextUnconfirmed }
       (u32le 0 ++ u32le 0 ++ u32le 2 ++ [5, 6]) 0 0 2
       rfl (by decide) (by decide) (by decide) (by decide)).1
     { data := [[5, 6, 0, 0]], register_flexible := false } (by decide)⟩

/-- C4 counterexample: a broadcast ping (target 0) processed by host id 5
produces a reply whose source is the host id 5, not the original target 0:
`process_frame` builds replies with `create_frame`, which does not swap
source and target of the request. -/
theorem reply_source_not_swapped_cex :
    (process_frame BasicCtx.get_bytes BasicCtx.set_bytes none
        { id := 5, next_frame_id := 0 }
        { data := [[0]], register_flexible := false }
        { source := 7, target := 0, id := 3, in_reply_to := 0, command := .Ping }
        []).1 =
      .ok (some ({ source := 5, target := 7, id := 0, in_reply_to := 3,
                   command := .Reply }, [])) ∧
    ({ source := 5, target := 7, id := 0, in_reply_to := 3,
       command := .Reply } : Frame).source ≠
      ({ source := 7, target := 0, id := 3, in_reply_to := 0,
         command := .Ping } : Frame).target := by
  refine ⟨by decide, by decide⟩

/-- C4 (amended): every reply or error frame produced by `process_frame` has
`in_reply_to` equal to the request id and `target` equal to the request
source; its `source` is the host id (which equals the request target exactly
when the request was addressed to the host id itself, not for broadcast or
mismatched targets). -/
theorem reply_frame_correlation {σ : Type}
    (get_bytes : σ → Nat → Nat → Nat → Except Error (List Nat))
    (set_bytes : σ → Nat → Nat → List Nat → Except Error σ)
    (handler : Option Handler) (h : HostSt) (ctx : σ) (frame : Frame)
    (data : List Nat) (R : Frame) (p : List Nat) (h2 : HostSt) (ctx2 : σ)
    (hres : process_frame get_bytes set_bytes handler h ctx frame data =
      (.ok (some (R, p)), h2, ctx2)) :
    R.in_reply_to = frame.id ∧ R.target = frame.source ∧ R.source = h.id := by
  unfold process_frame at hres
  by_cases hc1 : frame.command = .Reply
  · rw [if_pos hc1] at hres; simp at hres
  rw [if_neg hc1] at hres
  by_cases hc2 : frame.command = .Error
  · rw [if_pos hc2] at hres; simp at hres
  rw [if_neg hc2] at hres
  by_cases hm : (!host_id_matches h frame) = true
  · rw [if_pos hm] at hres
    simp only [create_frame, Prod.mk.injEq, Except.ok.injEq, Option.some.injEq] at hres
    obtain ⟨⟨hR, -⟩, -, -⟩ := hres
    subst hR
    exact ⟨rfl, rfl, rfl⟩
  · rw [if_neg hm] at hres
    unfold dispatch_command at hres
    rcases hcmd : frame.command with _ | _ | _ | _ | _ | _ | v <;>
      simp only [hcmd] at hres
    · exact absurd hcmd hc1
    · exact absurd hcmd hc2
    all_goals
      repeat' (split at hres)
    all_goals
      simp only [create_frame, Prod.mk.injEq, Except.ok.injEq,
        Option.some.injEq] at hres
    all_goals
      try (obtain ⟨⟨hR, -⟩, -, -⟩ := hres; subst hR; exact ⟨rfl, rfl, rfl⟩)
    all_goals
      simp at hres

/-- Roundtrip of the 32-bit little-endian encoding. -/
theorem leVal_u32le {n : Nat} (h : n < 2 ^ 32) : leVal (u32le n) = n := by
  simp [leVal, u32le]
  omega

/-- Roundtrip of the 16-bit little-endian encoding. -/
theorem leVal_u16le {n : Nat} (h : n < 2 ^ 16) : leVal (u16le n) = n := by
  simp [leVal, u16le]
  omega

/-- Reading exactly the length of a prefix splits an appended stream. -/
theorem readExact_append {n : Nat} (s t : List Nat) (h : s.length = n) :
    readExact n (s ++ t) = .ok (s, t) := by
  unfold readExact
  rw [if_pos (by simp [List.length_append]; omega), List.take_left' h,
    List.drop_left' h]

/-- Parsing the emitted frame bytes (with the padding byte) recovers a
well-formed frame. -/
theorem parseFrame_frameBytes (f : Frame) (hf : f.wf) :
    parseFrame (frameBytes f ++ [0]) = .ok f := by
  obtain ⟨fs, ft, fid, firt, fc⟩ := f
  obtain ⟨h1, h2, h3, h4, h5, h6⟩ := hf
  dsimp only at h1 h2 h3 h4 h5 h6
  simp only [frameBytes, u32le, u16le, parseFrame, List.cons_append,
    List.nil_append, Except.ok.injEq, Frame.mk.injEq]
  refine ⟨?_, ?_, ?_, ?_, ?_⟩
  · simp [leVal]; omega
  · simp [leVal]; omega
  · simp [leVal]; omega
  · simp [leVal]; omega
  · have hc : leVal [Command.code fc % 256, Command.code fc / 256 % 256] =
        Command.code fc := by
      simp [leVal]; omega
    rw [hc]; exact h5

/-- C9: for every well-formed frame and payload fitting the 32-bit size
field, encoding the packet (`Packet::write_to` of the 7-byte header plus the
19-byte frame region, followed by the payload) and then decoding it
(`Packet::read_from` followed by reading `data_len` payload bytes) yields
the same frame and the same payload. -/
theorem packet_encode_decode_roundtrip (f : Frame) (p : List Nat) (hf : f.wf)
    (hp : p.length + Frame.SIZE < 2 ^ 32) :
    encodePacket f p =
      .ok ((packetHeaderBytes (p.length + Frame.SIZE) ++ frameBytes f ++ [0]) ++ p) ∧
    decodePacket
        ((packetHeaderBytes (p.length + Frame.SIZE) ++ frameBytes f ++ [0]) ++ p) =
      .ok (f, p) := by
  have hw : Packet.write_to { frame := f, data_len := p.length } =
      .ok (packetHeaderBytes (p.length + Frame.SIZE) ++ frameBytes f ++ [0]) := by
    unfold Packet.write_to
    dsimp only
    rw [if_pos hp]
  have hA : (packetHeaderBytes (p.length + Frame.SIZE)).length =
      PacketHeader.SIZE := by
    simp [packetHeaderBytes, u32le, PacketHeader.SIZE]
  have hB : (frameBytes f ++ [0]).length = Frame.SIZE := by
    simp [frameBytes, u32le, u16le, Frame.SIZE]
  have hh : parsePacketHeader (packetHeaderBytes (p.length + Frame.SIZE)) =
      .ok { version := VERSION, size := p.length + Frame.SIZE } := by
    simp [packetHeaderBytes, u32le, parsePacketHeader, VERSION, leVal]
    omega
  constructor
  · unfold encodePacket
    rw [hw]
  · unfold decodePacket Packet.read_from
    rw [List.append_assoc, List.append_assoc, readExact_append _ _ hA]
    dsimp only
    rw [hh]
    dsimp only
    rw [if_neg (by simp), if_neg (by omega)]
    rw [← List.append_assoc, readExact_append _ _ hB]
    dsimp only
    rw [parseFrame_frameBytes f hf]
    dsimp only
    have hd : p.length + Frame.SIZE - Frame.SIZE = p.length := by omega
    rw [hd]
    rw [show readExact p.length p = .ok (p, []) from by
      unfold readExact
      rw [if_pos (le_refl _)]
      simp]

/-- C9 witness: the packet roundtrip theorem applied to a concrete frame and
payload. -/
theorem packet_encode_decode_roundtrip_witness :
    Frame.wf { source := 1, target := 2, id := 3, in_reply_to := 4,
               command := .Ping } ∧
    ([5, 6] : List Nat).length + Frame.SIZE < 2 ^ 32 ∧
    (encodePacket { source := 1, target := 2, id := 3, in_reply_to := 4,
                    command := .Ping } [5, 6] =
      .ok ((packetHeaderBytes (([5, 6] : List Nat).length + Frame.SIZE) ++
          frameBytes { source := 1, target := 2, id := 3, in_reply_to := 4,
                       command := .Ping } ++ [0]) ++ [5, 6]) ∧
    decodePacket ((packetHeaderBytes (([5, 6] : List Nat).length + Frame.SIZE) ++
          frameBytes { source := 1, target := 2, id := 3, in_reply_to := 4,
                       command := .Ping } ++ [0]) ++ [5, 6]) =
      .ok ({ source := 1, target := 2, id := 3, in_reply_to := 4,
             command := .Ping }, [5, 6])) :=
  ⟨by decide, by decide,
   packet_encode_decode_roundtrip
     { source := 1, target := 2, id := 3, in_reply_to := 4, command := .Ping }
     [5, 6] (by decide) (by decide)⟩

/-- C4 witness: the correlation theorem applied to a concrete accepted
ping. -/
theorem reply_frame_correlation_witness :
    process_frame BasicCtx.get_bytes BasicCtx.set_bytes none
        { id := 1, next_frame_id := 6 }
        { data := [[0]], register_flexible := false }
        { source := 9, target := 1, id := 3, in_reply_to := 0, command := .Ping }
        [] =
      (.ok (some ({ source := 1, target := 9, id := 6, in_reply_to := 3,
                    command := .Reply }, [])),
       { id := 1, next_frame_id := 7 },
       { data := [[0]], register_flexible := false }) ∧
    (({ source := 1, target := 9, id := 6, in_reply_to := 3,
        command := .Reply } : Frame).in_reply_to = 3 ∧
      ({ source := 1, target := 9, id := 6, in_reply_to := 3,
         command := .Reply } : Frame).target = 9 ∧
      ({ source := 1, target := 9, id := 6, in_reply_to := 3,
         command := .Reply } : Frame).source = 1) :=
  ⟨by decide,
   reply_frame_correlation BasicCtx.get_bytes BasicCtx.set_bytes none
     { id := 1, next_frame_id := 6 }
     { data := [[0]], register_flexible := false }
     { source := 9, target := 1, id := 3, in_reply_to := 0, command := .Ping }
     [] { source := 1, target := 9, id := 6, in_reply_to := 3, command := .Reply }
     [] { id := 1, next_frame_id := 7 }
     { data := [[0]], register_flexible := false } (by decide)⟩

end Rpdo
